import Mathlib

/-!
Verification development for the Go/Gin Todo backend
(`backend/internal/{model,service,repository,handler}`).

The Go code is shallowly embedded: the persistence store is a `List Todo`
(resp. `List User`), the GORM soft-delete scope is a `deleted` flag that every
repository query filters out, and every service operation is a pure function
from the store to a result plus a new store.  Status and priority are kept as
strings, exactly as in the Go source (`type Status string`), and validation of
request payloads mirrors the `validator` struct tags.
-/

namespace TodoApp

/-- Status constant, from `model.StatusPending`. -/
def StatusPending : String := "pending"

/-- Status constant, from `model.StatusCompleted`. -/
def StatusCompleted : String := "completed"

/-- Priority constant, from `model.PriorityLow`. -/
def PriorityLow : String := "low"

/-- Priority constant, from `model.PriorityMedium`. -/
def PriorityMedium : String := "medium"

/-- Priority constant, from `model.PriorityHigh`. -/
def PriorityHigh : String := "high"

/-- Embedding of `model.Todo`.  `DueDate` is an optional Unix time,
`CreatedAt`/`UpdatedAt` are Unix times, and `deleted` models the GORM
`DeletedAt` soft-delete marker (`none`/`some` collapsed to a flag). -/
structure Todo where
  ID : String
  Title : String
  Description : String
  Priority : String
  Status : String
  UserID : String
  DueDate : Option Int
  CreatedAt : Int
  UpdatedAt : Int
  deleted : Bool
deriving DecidableEq, Repr

/-- Embedding of `model.Todo.IsCompleted`. -/
def Todo.isCompleted (t : Todo) : Bool :=
  t.Status == StatusCompleted

/-- Embedding of `model.Todo.MarkAsCompleted`. -/
def Todo.markAsCompleted (t : Todo) : Todo :=
  { t with Status := StatusCompleted }

/-- Embedding of `model.Todo.MarkAsPending`. -/
def Todo.markAsPending (t : Todo) : Todo :=
  { t with Status := StatusPending }

/-- Embedding of `model.TodoResponse` as produced by `Todo.ToResponse(false)`
(the `User` relation is not included on that path). -/
structure TodoResponse where
  ID : String
  Title : String
  Description : String
  Priority : String
  Status : String
  UserID : String
  DueDate : Option Int
  CreatedAt : Int
  UpdatedAt : Int
deriving DecidableEq, Repr

/-- Embedding of `model.Todo.ToResponse` with `includeUser = false`. -/
def Todo.toResponse (t : Todo) : TodoResponse :=
  { ID := t.ID, Title := t.Title, Description := t.Description,
    Priority := t.Priority, Status := t.Status, UserID := t.UserID,
    DueDate := t.DueDate, CreatedAt := t.CreatedAt, UpdatedAt := t.UpdatedAt }

/-- Embedding of `model.CreateTodoRequest`.  A JSON body with the `priority`
key omitted binds to the zero value `""`, exactly as in Go. -/
structure CreateTodoRequest where
  Title : String
  Description : String
  Priority : String
  DueDate : Option Int
deriving DecidableEq, Repr

/-- Embedding of `model.UpdateTodoRequest` (nullable pointers become
`Option`). -/
structure UpdateTodoRequest where
  Title : Option String
  Description : Option String
  Priority : Option String
  Status : Option String
  DueDate : Option Int
deriving DecidableEq, Repr

/-- Embedding of `model.TodoListRequest` (Go `int` becomes `Int`). -/
structure TodoListRequest where
  Page : Int
  Limit : Int
  Status : Option String
  Priority : Option String
  Search : String
deriving DecidableEq, Repr

/-- Embedding of `model.User`. -/
structure User where
  ID : String
  Name : String
  Email : String
  Password : String
  CreatedAt : Int
  UpdatedAt : Int
  deleted : Bool
deriving DecidableEq, Repr

/-- Embedding of `model.UserResponse`: note there is no password field. -/
structure UserResponse where
  ID : String
  Name : String
  Email : String
  CreatedAt : Int
  UpdatedAt : Int
deriving DecidableEq, Repr

/-- Embedding of `model.User.ToResponse`. -/
def User.toResponse (u : User) : UserResponse :=
  { ID := u.ID, Name := u.Name, Email := u.Email,
    CreatedAt := u.CreatedAt, UpdatedAt := u.UpdatedAt }

/-- Embedding of `model.UserRequest` (registration payload). -/
structure UserRequest where
  Name : String
  Email : String
  Password : String
deriving DecidableEq, Repr

/-- Embedding of `model.LoginRequest`. -/
structure LoginRequest where
  Email : String
  Password : String
deriving DecidableEq, Repr

/-- Embedding of the JWT claims map built by `authService.GenerateToken`:
`{"user_id": uid, "iat": now, "exp": now + expirationHours * 3600}` (times in
Unix seconds, `time.Hour * Duration(h)` added before `.Unix()`). -/
structure JWTClaims where
  userID : String
  iat : Int
  exp : Int
deriving DecidableEq, Repr

/-- Embedding of `authService.GenerateToken` (the signature itself is opaque
and irrelevant to the claims; the token is identified with its claims). -/
def generateToken (expirationHours : Int) (now : Int) (userID : String) : JWTClaims :=
  { userID := userID, iat := now, exp := now + 3600 * expirationHours }

/-- Modelled from the spec: the expiry comparison performed inside the external
`github.com/golang-jwt/jwt/v5` library when `authService.ValidateToken` calls
`jwt.Parse`.  The spec states that `validate` succeeds strictly before expiry
and that "a token validated at exactly its expiry instant is treated as
expired", i.e. validation succeeds iff `now < exp`. -/
def validateTokenAt (claims : JWTClaims) (now : Int) : Bool :=
  decide (now < claims.exp)

/-- Embedding of `model.LoginResponse` (token identified with its claims). -/
structure LoginResponse where
  Token : JWTClaims
  User : UserResponse
deriving DecidableEq, Repr

/-- Error values produced by `authService` (Go error strings). -/
inductive AuthError where
  /-- Go error string "invalid email or password". -/
  | invalidCredentials : AuthError
  /-- Go error string "user with this email already exists". -/
  | emailExists : AuthError
deriving DecidableEq, Repr

/-- Embedding of `userRepository.GetByEmail`: `WHERE email = ?` under the GORM
soft-delete scope, `First` returning `ErrRecordNotFound` as `none`. -/
def getByEmail (email : String) (users : List User) : Option User :=
  (users.filter (fun u => u.Email == email && !u.deleted)).head?

/-- Embedding of `authService.Register`.  `hash` models
`bcrypt.GenerateFromPassword`, `newID` the UUID generated by the database and
`now` the record timestamps.  Returns the created user and the new store. -/
def register (hash : String → String) (newID : String) (now : Int)
    (req : UserRequest) (users : List User) : Except AuthError (User × List User) :=
  match getByEmail req.Email users with
  | some _ => Except.error AuthError.emailExists
  | none =>
    let user : User :=
      { ID := newID, Name := req.Name, Email := req.Email,
        Password := hash req.Password, CreatedAt := now, UpdatedAt := now,
        deleted := false }
    Except.ok (user, users ++ [user])

/-- Embedding of the success path of `AuthHandler.Register`: the handler
serialises `user.ToResponse()`. -/
def registerView (hash : String → String) (newID : String) (now : Int)
    (req : UserRequest) (users : List User) : Except AuthError UserResponse :=
  match register hash newID now req users with
  | Except.error e => Except.error e
  | Except.ok (u, _) => Except.ok u.toResponse

/-- Embedding of `authService.Login`.  `verify hash pw` models
`bcrypt.CompareHashAndPassword` succeeding. -/
def login (verify : String → String → Bool) (expirationHours : Int) (now : Int)
    (req : LoginRequest) (users : List User) : Except AuthError LoginResponse :=
  match getByEmail req.Email users with
  | none => Except.error AuthError.invalidCredentials
  | some u =>
    if verify u.Password req.Password then
      Except.ok { Token := generateToken expirationHours now u.ID,
                  User := u.toResponse }
    else
      Except.error AuthError.invalidCredentials

/-- Matching of a SQL `ILIKE` pattern against a text, both as character lists.
`%` matches any sequence of characters, `_` matches exactly one character,
any other pattern character matches case-insensitively; the pattern must cover
the whole text.  This embeds the semantics of the Postgres `ILIKE` operator
used in `todoRepository.GetByUserID`
(`title ILIKE ? OR description ILIKE ?` with pattern `"%"+search+"%"`). -/
def likeMatch : List Char → List Char → Bool
  | [], ts => ts.isEmpty
  | p :: ps, ts =>
    if p = '%' then
      ts.tails.any (fun ts2 => likeMatch ps ts2)
    else
      match ts with
      | [] => false
      | t :: ts2 => (if p = '_' then true else p.toLower == t.toLower) && likeMatch ps ts2

/-- Embedding of the pattern `"%" + req.Search + "%"` built in
`todoRepository.GetByUserID`. -/
def searchPattern (s : String) : String := "%" ++ s ++ "%"

/-- The search condition of `todoRepository.GetByUserID` applied to one row:
`title ILIKE '%search%' OR description ILIKE '%search%'`. -/
def searchMatches (s : String) (t : Todo) : Bool :=
  likeMatch (searchPattern s).data t.Title.data ||
    likeMatch (searchPattern s).data t.Description.data

/-- The complete row filter of `todoRepository.GetByUserID`:
`user_id = ?`, the GORM soft-delete scope, the optional status and priority
filters, and the search condition (only applied when `req.Search != ""`). -/
def matchesFilters (userID : String) (req : TodoListRequest) (t : Todo) : Bool :=
  t.UserID == userID && !t.deleted &&
    (match req.Status with
     | none => true
     | some s => t.Status == s) &&
    (match req.Priority with
     | none => true
     | some p => t.Priority == p) &&
    (req.Search.isEmpty || searchMatches req.Search t)

/-- Descending insertion by `CreatedAt`, used to model
`Order("created_at DESC")`. -/
def insertByCreatedDesc (t : Todo) : List Todo → List Todo
  | [] => [t]
  | x :: xs =>
    if t.CreatedAt ≤ x.CreatedAt then x :: insertByCreatedDesc t xs
    else t :: x :: xs

/-- Sort newest-created-first, modelling `Order("created_at DESC")`. -/
def sortByCreatedDesc (l : List Todo) : List Todo :=
  l.foldr insertByCreatedDesc []

/-- Embedding of `todoRepository.GetByUserID`: filter, count the filtered rows,
then order newest-first and apply `Offset((page-1)*limit)` and `Limit(limit)`.
Returns the page of rows and the total count. -/
def getByUserID (userID : String) (req : TodoListRequest) (store : List Todo) :
    List Todo × Nat :=
  let filtered := store.filter (matchesFilters userID req)
  let total := filtered.length
  let offset := ((req.Page - 1) * req.Limit).toNat
  let items := ((sortByCreatedDesc filtered).drop offset).take req.Limit.toNat
  (items, total)

/-- The row predicate of `todoRepository.GetUserTodoByID`:
`id = ? AND user_id = ?` under the GORM soft-delete scope. -/
def todoOwnedPred (userID todoID : String) (t : Todo) : Bool :=
  t.ID == todoID && t.UserID == userID && !t.deleted

/-- Embedding of `todoRepository.GetUserTodoByID`; `First` returning
`ErrRecordNotFound` becomes `none`. -/
def getUserTodoByID (userID todoID : String) (store : List Todo) : Option Todo :=
  (store.filter (todoOwnedPred userID todoID)).head?

/-- Embedding of `todoRepository.Update` (`db.Save`): replace the row with the
matching primary key; GORM stamps `UpdatedAt` on save, which the service
embeddings below perform before calling this. -/
def saveTodo (t : Todo) (store : List Todo) : List Todo :=
  store.map (fun x => if x.ID == t.ID then t else x)

/-- Embedding of `todoRepository.Delete` (`Where("id = ?").Delete`): GORM
soft-deletes every row with the given id (note: no user filter here). -/
def softDeleteTodo (todoID : String) (store : List Todo) : List Todo :=
  store.map (fun x => if x.ID == todoID then { x with deleted := true } else x)

/-- Error values of `todoService` surfaced to handlers: the only classified
error is the Go error string "todo not found" (mapped to HTTP 404). -/
inductive TodoError where
  /-- Go error string "todo not found". -/
  | notFound : TodoError
deriving DecidableEq, Repr

namespace TodoSvc

/-- Embedding of `todoService.Create`: the status is forced to
`model.StatusPending`; `newID` is the database-generated UUID and `now` the
record timestamps. -/
def create (userID : String) (req : CreateTodoRequest) (newID : String)
    (now : Int) (store : List Todo) : Todo × List Todo :=
  let todo : Todo :=
    { ID := newID, Title := req.Title, Description := req.Description,
      Priority := req.Priority, Status := StatusPending, UserID := userID,
      DueDate := req.DueDate, CreatedAt := now, UpdatedAt := now,
      deleted := false }
  (todo, store ++ [todo])

/-- Embedding of `todoService.GetByID`. -/
def getByID (userID todoID : String) (store : List Todo) : Except TodoError Todo :=
  match getUserTodoByID userID todoID store with
  | none => Except.error TodoError.notFound
  | some t => Except.ok t

/-- Embedding of `todoService.Update`: fields are applied only when provided;
a provided `DueDate` overwrites, an absent one leaves the stored value. -/
def update (userID todoID : String) (req : UpdateTodoRequest) (now : Int)
    (store : List Todo) : Except TodoError (Todo × List Todo) :=
  match getUserTodoByID userID todoID store with
  | none => Except.error TodoError.notFound
  | some t =>
    let t2 : Todo :=
      { t with
        Title := req.Title.getD t.Title,
        Description := req.Description.getD t.Description,
        Priority := req.Priority.getD t.Priority,
        Status := req.Status.getD t.Status,
        DueDate := match req.DueDate with
                   | none => t.DueDate
                   | some d => some d,
        UpdatedAt := now }
    Except.ok (t2, saveTodo t2 store)

/-- Embedding of `todoService.Delete`: ownership is checked via
`GetUserTodoByID`, then the repository deletes by id. -/
def delete (userID todoID : String) (store : List Todo) :
    Except TodoError (List Todo) :=
  match getUserTodoByID userID todoID store with
  | none => Except.error TodoError.notFound
  | some _ => Except.ok (softDeleteTodo todoID store)

/-- Embedding of `todoService.ToggleStatus`. -/
def toggleStatus (userID todoID : String) (now : Int) (store : List Todo) :
    Except TodoError (Todo × List Todo) :=
  match getUserTodoByID userID todoID store with
  | none => Except.error TodoError.notFound
  | some t =>
    let t2 := if t.isCompleted then t.markAsPending else t.markAsCompleted
    let t3 : Todo := { t2 with UpdatedAt := now }
    Except.ok (t3, saveTodo t3 store)

/-- Embedding of `model.TodoListResponse`. -/
structure ListResponse where
  Data : List TodoResponse
  Total : Nat
  Page : Int
  Limit : Int
  TotalPages : Nat
deriving DecidableEq, Repr

/-- Embedding of `todoService.GetList`: page defaults to 1 when `< 1`, limit
defaults to 10 when outside `[1,100]`, and
`totalPages = Ceil(total / limit)` (exact ceiling division, the Go code
computes it through `float64`). -/
def getList (userID : String) (req : TodoListRequest) (store : List Todo) :
    ListResponse :=
  let page : Int := if req.Page < 1 then 1 else req.Page
  let limit : Int := if req.Limit < 1 || req.Limit > 100 then 10 else req.Limit
  let req2 : TodoListRequest := { req with Page := page, Limit := limit }
  let r := getByUserID userID req2 store
  let totalPages : Nat := (r.2 + limit.toNat - 1) / limit.toNat
  { Data := r.1.map Todo.toResponse, Total := r.2, Page := page,
    Limit := limit, TotalPages := totalPages }

end TodoSvc

/-- Embedding of the `validator` struct tags on `model.CreateTodoRequest`, as
checked by `TodoHandler.Create` before calling the service:
`Title: required,min=1,max=200`, `Description: max=1000`,
`Priority: oneof=low medium high` (no `omitempty`, so the zero value `""`
fails). -/
def validCreateTodoRequest (req : CreateTodoRequest) : Bool :=
  (1 ≤ req.Title.length && req.Title.length ≤ 200) &&
    req.Description.length ≤ 1000 &&
    (req.Priority == PriorityLow || req.Priority == PriorityMedium ||
      req.Priority == PriorityHigh)

/-- Embedding of `TodoHandler.Create`: a failed struct validation is answered
with HTTP 400 and the service is never called; on success the created todo is
serialised with HTTP 201. -/
def handleCreate (userID : String) (req : CreateTodoRequest) (newID : String)
    (now : Int) (store : List Todo) : Except Nat (TodoResponse × List Todo) :=
  if validCreateTodoRequest req then
    let r := TodoSvc.create userID req newID now store
    Except.ok (r.1.toResponse, r.2)
  else
    Except.error 400

/-- Specification-side definition (refinement counterpart for the search
claim): `s` is a case-insensitive prefix of `ts`. -/
def isPrefixCI : List Char → List Char → Bool
  | [], _ => true
  | _ :: _, [] => false
  | c :: cs, t :: ts => (c.toLower == t.toLower) && isPrefixCI cs ts

/-- Specification-side definition: `s` occurs in `ts` as a case-insensitive
contiguous substring (the spec's "case-insensitive substring" matching). -/
def containsCI (s : List Char) : List Char → Bool
  | [] => isPrefixCI s []
  | t :: ts => isPrefixCI s (t :: ts) || containsCI s ts

/-- Specification-side definition of the search condition, following the
spec's words: "search matches title OR description via case-insensitive
substring". -/
def specSearchMatches (s : String) (t : Todo) : Bool :=
  containsCI s.data t.Title.data || containsCI s.data t.Description.data

/-- A search text is metacharacter-free when it avoids the `LIKE` wildcard
characters and the escape character. -/
def cleanSearch (s : String) : Prop :=
  ∀ c ∈ s.data, c ≠ '%' ∧ c ≠ '_' ∧ c ≠ '\\'

instance (s : String) : Decidable (cleanSearch s) := by
  unfold cleanSearch
  infer_instance

/-- One authenticated mutating request against the todo store, carrying the
caller identity resolved by the auth middleware. -/
inductive TodoOp where
  /-- `POST /todos` handled by `todoService.Create`. -/
  | createOp (caller : String) (req : CreateTodoRequest) (newID : String) (now : Int)
  /-- `PUT /todos/:id` handled by `todoService.Update`. -/
  | updateOp (caller : String) (todoID : String) (req : UpdateTodoRequest) (now : Int)
  /-- `PATCH /todos/:id/toggle` handled by `todoService.ToggleStatus`. -/
  | toggleOp (caller : String) (todoID : String) (now : Int)
  /-- `DELETE /todos/:id` handled by `todoService.Delete`. -/
  | deleteOp (caller : String) (todoID : String)
deriving DecidableEq, Repr

/-- Effect of one request on the store (a failed request leaves it unchanged). -/
def applyOp (store : List Todo) : TodoOp → List Todo
  | TodoOp.createOp caller req newID now => (TodoSvc.create caller req newID now store).2
  | TodoOp.updateOp caller todoID req now =>
    match TodoSvc.update caller todoID req now store with
    | Except.ok r => r.2
    | Except.error _ => store
  | TodoOp.toggleOp caller todoID now =>
    match TodoSvc.toggleStatus caller todoID now store with
    | Except.ok r => r.2
    | Except.error _ => store
  | TodoOp.deleteOp caller todoID =>
    match TodoSvc.delete caller todoID store with
    | Except.ok s2 => s2
    | Except.error _ => store

/-- Run a sequence of requests left to right. -/
def runOps (store : List Todo) : List TodoOp → List Todo
  | [] => store
  | op :: ops => runOps (applyOp store op) ops

/-- The `(todo id, creator)` pairs introduced by the create requests of a
trace. -/
def createdPairs : List TodoOp → List (String × String)
  | [] => []
  | TodoOp.createOp caller _ newID _ :: ops => (newID, caller) :: createdPairs ops
  | TodoOp.updateOp _ _ _ _ :: ops => createdPairs ops
  | TodoOp.toggleOp _ _ _ :: ops => createdPairs ops
  | TodoOp.deleteOp _ _ :: ops => createdPairs ops

/-- The ownership view of a store: each live or deleted row's id paired with
its owner. -/
def ownerPairs (store : List Todo) : List (String × String) :=
  store.map (fun t => (t.ID, t.UserID))

/-! ### Concrete fixtures used by witnesses and counterexamples -/

/-- A pending todo owned by user `alice`. -/
def aliceTodo : Todo :=
  { ID := ("t1"), Title := ("task"), Description := (""),
    Priority := PriorityMedium, Status := StatusPending, UserID := ("alice"),
    DueDate := none, CreatedAt := 0, UpdatedAt := 0, deleted := false }

/-- An update request providing no field at all. -/
def emptyUpdateReq : UpdateTodoRequest :=
  { Title := none, Description := none, Priority := none, Status := none,
    DueDate := none }

/-- A todo whose title is the single letter `a`. -/
def letterTodo : Todo :=
  { ID := ("t9"), Title := ("a"), Description := (""),
    Priority := PriorityMedium, Status := StatusPending, UserID := ("u"),
    DueDate := none, CreatedAt := 0, UpdatedAt := 0, deleted := false }

/-- A todo mentioning MILK in its title. -/
def milkTodo : Todo :=
  { ID := ("t1"), Title := ("Buy MILK"), Description := (""),
    Priority := PriorityHigh, Status := StatusPending, UserID := ("alice"),
    DueDate := none, CreatedAt := 0, UpdatedAt := 0, deleted := false }

/-- A create request for `milkTodo`. -/
def milkReq : CreateTodoRequest :=
  { Title := ("Buy MILK"), Description := (""), Priority := PriorityHigh,
    DueDate := none }

/-- A create request whose `priority` key was omitted from the JSON body, so
the field bound to the Go zero value `""`. -/
def omittedPriorityReq : CreateTodoRequest :=
  { Title := ("Buy milk"), Description := (""), Priority := (""),
    DueDate := none }

/-- A seed todo for the pagination scenario. -/
def mkSeedTodo (i : Nat) : Todo :=
  { ID := toString i, Title := ("task"), Description := (""),
    Priority := PriorityMedium, Status := StatusPending, UserID := ("alice"),
    DueDate := none, CreatedAt := Int.ofNat i, UpdatedAt := 0,
    deleted := false }

/-- Twenty-five todos owned by `alice`. -/
def store25 : List Todo := (List.range 25).map mkSeedTodo

/-- A list request with only page and limit set. -/
def listReq (page limit : Int) : TodoListRequest :=
  { Page := page, Limit := limit, Status := none, Priority := none,
    Search := ("") }

/-! ### Helper lemmas about the repository layer -/

/-- If no row satisfies the ownership predicate, `GetUserTodoByID` reports
record-not-found. -/
theorem getUserTodoByID_eq_none (a tid : String) (store : List Todo)
    (h : ∀ t ∈ store, todoOwnedPred a tid t = false) :
    getUserTodoByID a tid store = none := by
  induction store with
  | nil => rfl
  | cons x xs ih =>
    have hx := h x (by simp)
    have ih2 := ih (fun t ht => h t (by simp [ht]))
    simp only [getUserTodoByID, List.filter_cons, hx] at ih2 ⊢
    simpa using ih2

/-- A row returned by `GetUserTodoByID` is in the store and satisfies the
ownership predicate. -/
theorem getUserTodoByID_some (a tid : String) (store : List Todo) (t0 : Todo)
    (h : getUserTodoByID a tid store = some t0) :
    t0 ∈ store ∧ todoOwnedPred a tid t0 = true := by
  induction store with
  | nil => simp [getUserTodoByID] at h
  | cons x xs ih =>
    by_cases hx : todoOwnedPred a tid x = true
    · have hx0 : t0 = x := by
        simp only [getUserTodoByID, List.filter_cons, hx, if_true,
          List.head?_cons, Option.some.injEq] at h
        exact h.symm
      subst hx0
      exact ⟨by simp, hx⟩
    · have hx2 : todoOwnedPred a tid x = false := by simpa using hx
      have h2 : getUserTodoByID a tid xs = some t0 := by
        simpa only [getUserTodoByID, List.filter_cons, hx2] using h
      obtain ⟨hm, hp⟩ := ih h2
      exact ⟨List.mem_cons_of_mem x hm, hp⟩

/-- Saving a row that keeps the id, the owner and the delete marker of the row
previously found by `GetUserTodoByID` makes the saved row the one found next. -/
theorem getUserTodoByID_save (a tid : String) (store : List Todo) (t0 t1 : Todo)
    (h : getUserTodoByID a tid store = some t0)
    (hid : t1.ID = t0.ID) (huid : t1.UserID = t0.UserID)
    (hdel : t1.deleted = t0.deleted) :
    getUserTodoByID a tid (saveTodo t1 store) = some t1 := by
  have hp0 : todoOwnedPred a tid t0 = true := (getUserTodoByID_some a tid store t0 h).2
  simp only [todoOwnedPred, Bool.and_eq_true, beq_iff_eq,
    Bool.not_eq_true'] at hp0
  have hp1 : todoOwnedPred a tid t1 = true := by
    simp [todoOwnedPred, hid, huid, hdel, hp0.1.1, hp0.1.2, hp0.2]
  induction store with
  | nil => simp [getUserTodoByID] at h
  | cons x xs ih =>
    by_cases hxid : x.ID = t1.ID
    · simp [saveTodo, getUserTodoByID, List.filter_cons, hxid, hp1]
    · by_cases hpx : todoOwnedPred a tid x = true
      · have hx0 : t0 = x := by
          simp only [getUserTodoByID, List.filter_cons, hpx, if_true,
            List.head?_cons, Option.some.injEq] at h
          exact h.symm
        subst hx0
        exact absurd hid.symm hxid
      · have hpx2 : todoOwnedPred a tid x = false := by simpa using hpx
        have h2 : getUserTodoByID a tid xs = some t0 := by
          simpa only [getUserTodoByID, List.filter_cons, hpx2] using h
        have ih2 := ih h2
        simpa [saveTodo, getUserTodoByID, List.filter_cons, hxid, hpx2]
          using ih2

/-! ### Helper lemmas about `ILIKE` matching -/

/-- A clean pattern followed by a single trailing `%` matches exactly the
texts that start with the pattern (case-insensitively). -/
theorem likeMatch_append_percent (s : List Char) (hs : ∀ c ∈ s, c ≠ '%' ∧ c ≠ '_') :
    ∀ ts : List Char, likeMatch (s ++ ['%']) ts = isPrefixCI s ts := by
  induction s with
  | nil =>
    intro ts
    simp only [List.nil_append, isPrefixCI]
    simp [likeMatch, List.any_eq_true, List.mem_tails]
  | cons c cs ih =>
    intro ts
    have hc := hs c (by simp)
    have ih2 := ih (fun d hd => hs d (by simp [hd]))
    cases ts with
    | nil => simp [likeMatch, isPrefixCI, hc.1]
    | cons t ts2 => simp [likeMatch, isPrefixCI, hc.1, hc.2, ih2 ts2]

/-- The spec's substring check enumerated over the suffixes of the text. -/
theorem containsCI_eq_any_tails (s ts : List Char) :
    containsCI s ts = ts.tails.any (isPrefixCI s) := by
  induction ts with
  | nil => simp [containsCI, List.tails]
  | cons t ts ih => simp [containsCI, List.tails_cons, ih]

/-- For a metacharacter-free search text, the `ILIKE '%s%'` pattern used by
the repository coincides with case-insensitive substring containment. -/
theorem likeMatch_clean_contains (s : List Char) (hs : ∀ c ∈ s, c ≠ '%' ∧ c ≠ '_') :
    ∀ ts : List Char, likeMatch ('%' :: (s ++ ['%'])) ts = containsCI s ts := by
  intro ts
  rw [containsCI_eq_any_tails]
  have hpt : ∀ ts2 : List Char, likeMatch (s ++ ['%']) ts2 = isPrefixCI s ts2 :=
    likeMatch_append_percent s hs
  simp [likeMatch, hpt]

/-! ### Helper lemmas about the ownership trace invariant -/

/-- Every row of a saved store is an old row or the saved row. -/
theorem mem_saveTodo (t1 x : Todo) (store : List Todo)
    (hx : x ∈ saveTodo t1 store) : x ∈ store ∨ x = t1 := by
  obtain ⟨y, hy, hxy⟩ := List.mem_map.mp hx
  by_cases h : y.ID = t1.ID
  · right
    simpa [h] using hxy.symm
  · left
    have : y = x := by simpa [h] using hxy
    exact this ▸ hy

/-- Soft deletion preserves every row's id and owner. -/
theorem ownerPairs_mem_softDelete (tid : String) (x : Todo) (store : List Todo)
    (hx : x ∈ softDeleteTodo tid store) :
    (x.ID, x.UserID) ∈ ownerPairs store := by
  obtain ⟨y, hy, hxy⟩ := List.mem_map.mp hx
  have hpair : x.ID = y.ID ∧ x.UserID = y.UserID := by
    by_cases h : y.ID = tid
    · have : ({ y with deleted := true } : Todo) = x := by simpa [h] using hxy
      constructor <;> simp [← this]
    · have : y = x := by simpa [h] using hxy
      constructor <;> simp [← this]
  exact List.mem_map.mpr ⟨y, hy, by simp [hpair.1, hpair.2]⟩

/-- One request can only introduce the id/owner pair of its own create;
every other row keeps a pair the store already had. -/
theorem applyOp_ownerPairs (store : List Todo) (op : TodoOp) (t : Todo)
    (ht : t ∈ applyOp store op) :
    (t.ID, t.UserID) ∈ ownerPairs store ++ createdPairs [op] := by
  cases op with
  | createOp caller req newID now =>
    simp only [applyOp, TodoSvc.create] at ht
    rcases List.mem_append.mp ht with h | h
    · exact List.mem_append_left _ (List.mem_map.mpr ⟨t, h, rfl⟩)
    · apply List.mem_append_right
      simp only [List.mem_singleton] at h
      simp [createdPairs, h]
  | updateOp caller todoID req now =>
    apply List.mem_append_left
    cases hg : getUserTodoByID caller todoID store with
    | none =>
      simp only [applyOp, TodoSvc.update, hg] at ht
      exact List.mem_map.mpr ⟨t, ht, rfl⟩
    | some t0 =>
      have ht0 : t0 ∈ store := (getUserTodoByID_some caller todoID store t0 hg).1
      simp only [applyOp, TodoSvc.update, hg] at ht
      rcases mem_saveTodo _ t store ht with h | h
      · exact List.mem_map.mpr ⟨t, h, rfl⟩
      · exact List.mem_map.mpr ⟨t0, ht0, by simp [h]⟩
  | toggleOp caller todoID now =>
    apply List.mem_append_left
    cases hg : getUserTodoByID caller todoID store with
    | none =>
      simp only [applyOp, TodoSvc.toggleStatus, hg] at ht
      exact List.mem_map.mpr ⟨t, ht, rfl⟩
    | some t0 =>
      have ht0 : t0 ∈ store := (getUserTodoByID_some caller todoID store t0 hg).1
      simp only [applyOp, TodoSvc.toggleStatus, hg] at ht
      rcases mem_saveTodo _ t store ht with h | h
      · exact List.mem_map.mpr ⟨t, h, rfl⟩
      · refine List.mem_map.mpr ⟨t0, ht0, ?_⟩
        subst h
        by_cases hc : Todo.isCompleted t0 = true <;>
          simp [hc, Todo.markAsPending, Todo.markAsCompleted]
  | deleteOp caller todoID =>
    apply List.mem_append_left
    cases hg : getUserTodoByID caller todoID store with
    | none =>
      simp only [applyOp, TodoSvc.delete, hg] at ht
      exact List.mem_map.mpr ⟨t, ht, rfl⟩
    | some t0 =>
      simp only [applyOp, TodoSvc.delete, hg] at ht
      exact ownerPairs_mem_softDelete todoID t store ht

/-- Created pairs of a trace split at its head request. -/
theorem createdPairs_cons (op : TodoOp) (ops : List TodoOp) :
    createdPairs (op :: ops) = createdPairs [op] ++ createdPairs ops := by
  cases op <;> simp [createdPairs]

/-- Generalised trace invariant: every row of the final store carries an
id/owner pair of the initial store or of some create request of the trace. -/
theorem runOps_ownerPairs (ops : List TodoOp) :
    ∀ (store : List Todo) (t : Todo), t ∈ runOps store ops →
      (t.ID, t.UserID) ∈ ownerPairs store ++ createdPairs ops := by
  induction ops with
  | nil =>
    intro store t ht
    simp only [runOps] at ht
    exact List.mem_append_left _ (List.mem_map.mpr ⟨t, ht, rfl⟩)
  | cons op ops ih =>
    intro store t ht
    have h2 := ih (applyOp store op) t ht
    rw [createdPairs_cons]
    rcases List.mem_append.mp h2 with h | h
    · obtain ⟨x, hx, hpx⟩ := List.mem_map.mp h
      have h3 := applyOp_ownerPairs store op x hx
      rcases List.mem_append.mp h3 with h4 | h4
      · exact List.mem_append_left _ (hpx ▸ h4)
      · exact List.mem_append_right _ (List.mem_append_left _ (hpx ▸ h4))
    · exact List.mem_append_right _ (List.mem_append_right _ h)

/-! ### Claim theorems -/

/-- C1: for a todo id whose rows all belong to user `a`, every todo operation
invoked with a different identity `b` fails with the same `notFound` error as
the same operation invoked with an id that does not exist at all; no distinct
forbidden signal exists in `TodoError`. -/
theorem c1_ownership_indistinguishable_from_absence (store : List Todo)
    (a b tid tid2 : String)
    (hown : ∀ t ∈ store, t.ID = tid → t.UserID = a)
    (hab : b ≠ a)
    (hmiss : ∀ t ∈ store, t.ID ≠ tid2)
    (req : UpdateTodoRequest) (now : Int) :
    (TodoSvc.getByID b tid store = Except.error TodoError.notFound ∧
      TodoSvc.getByID b tid store = TodoSvc.getByID b tid2 store) ∧
    (TodoSvc.update b tid req now store = Except.error TodoError.notFound ∧
      TodoSvc.update b tid req now store = TodoSvc.update b tid2 req now store) ∧
    (TodoSvc.delete b tid store = Except.error TodoError.notFound ∧
      TodoSvc.delete b tid store = TodoSvc.delete b tid2 store) ∧
    (TodoSvc.toggleStatus b tid now store = Except.error TodoError.notFound ∧
      TodoSvc.toggleStatus b tid now store = TodoSvc.toggleStatus b tid2 now store) := by
  have h1 : getUserTodoByID b tid store = none := by
    apply getUserTodoByID_eq_none
    intro t ht
    by_cases hid : t.ID = tid
    · have ha := hown t ht hid
      have hb : (t.UserID == b) = false := by
        simp only [beq_eq_false_iff_ne, ne_eq, ha]
        exact fun hcontra => hab hcontra.symm
      simp [todoOwnedPred, hb]
    · simp [todoOwnedPred, hid]
  have h2 : getUserTodoByID b tid2 store = none := by
    apply getUserTodoByID_eq_none
    intro t ht
    simp [todoOwnedPred, hmiss t ht]
  refine ⟨⟨?_, ?_⟩, ⟨?_, ?_⟩, ⟨?_, ?_⟩, ⟨?_, ?_⟩⟩ <;>
    simp [TodoSvc.getByID, TodoSvc.update, TodoSvc.delete,
      TodoSvc.toggleStatus, h1, h2]

/-- C1 witness: a concrete store holding one todo of `alice`, queried by
`bob` under the owned id `t1` and the absent id `zzz`. -/
theorem c1_witness :
    ((∀ t ∈ [aliceTodo], t.ID = ("t1") → t.UserID = ("alice")) ∧
      ("bob" : String) ≠ ("alice") ∧
      (∀ t ∈ [aliceTodo], t.ID ≠ ("zzz"))) ∧
    ((TodoSvc.getByID ("bob") ("t1") [aliceTodo] = Except.error TodoError.notFound ∧
       TodoSvc.getByID ("bob") ("t1") [aliceTodo] = TodoSvc.getByID ("bob") ("zzz") [aliceTodo]) ∧
     (TodoSvc.update ("bob") ("t1") emptyUpdateReq 5 [aliceTodo] = Except.error TodoError.notFound ∧
       TodoSvc.update ("bob") ("t1") emptyUpdateReq 5 [aliceTodo]
         = TodoSvc.update ("bob") ("zzz") emptyUpdateReq 5 [aliceTodo]) ∧
     (TodoSvc.delete ("bob") ("t1") [aliceTodo] = Except.error TodoError.notFound ∧
       TodoSvc.delete ("bob") ("t1") [aliceTodo] = TodoSvc.delete ("bob") ("zzz") [aliceTodo]) ∧
     (TodoSvc.toggleStatus ("bob") ("t1") 5 [aliceTodo] = Except.error TodoError.notFound ∧
       TodoSvc.toggleStatus ("bob") ("t1") 5 [aliceTodo]
         = TodoSvc.toggleStatus ("bob") ("zzz") 5 [aliceTodo])) :=
  ⟨⟨by decide, by decide, by decide⟩,
    c1_ownership_indistinguishable_from_absence [aliceTodo] ("alice") ("bob")
      ("t1") ("zzz") (by decide) (by decide) (by decide) emptyUpdateReq 5⟩

/-- C2: login answers with the single generic `invalidCredentials` error both
when no live user carries the email and when the bcrypt check rejects the
password, so the two failure causes are indistinguishable from the result. -/
theorem c2_login_generic_error (verify : String → String → Bool)
    (expirationHours now : Int) (e p : String) (users : List User)
    (hfail : getByEmail e users = none ∨
      ∃ u, getByEmail e users = some u ∧ verify u.Password p = false) :
    login verify expirationHours now { Email := e, Password := p } users
      = Except.error AuthError.invalidCredentials := by
  rcases hfail with h | ⟨u, hu, hv⟩
  · simp [login, h]
  · simp [login, hu, hv]

/-- C2 witness: an unknown email over an empty user store. -/
theorem c2_witness :
    (getByEmail ("ghost@example.com") ([] : List User) = none ∨
      ∃ u, getByEmail ("ghost@example.com") ([] : List User) = some u ∧
        (fun h p => h == p) u.Password ("pw") = false) ∧
    login (fun h p => h == p) 24 0
        { Email := ("ghost@example.com"), Password := ("pw") } []
      = Except.error AuthError.invalidCredentials :=
  ⟨Or.inl rfl,
    c2_login_generic_error (fun h p => h == p) 24 0 ("ghost@example.com")
      ("pw") [] (Or.inl rfl)⟩

/-- C3: registration's returned view is produced by `User.ToResponse`, which
has no password field: the view is independent of the submitted password, and
`ToResponse` is independent of the stored hash. -/
theorem c3_register_response_has_no_password (hash : String → String)
    (newID : String) (now : Int) (req : UserRequest) (users : List User)
    (p1 p2 : String) :
    registerView hash newID now { req with Password := p1 } users
      = registerView hash newID now { req with Password := p2 } users ∧
    ∀ (u : User) (p : String),
      User.toResponse { u with Password := p } = User.toResponse u := by
  constructor
  · unfold registerView register
    cases h : getByEmail req.Email users <;> simp [h, User.toResponse]
  · intro u p
    rfl

/-- C4: `todoService.Create` forces the status of every created todo to
`pending`, whatever the request contains. -/
theorem c4_create_forces_pending (userID : String) (req : CreateTodoRequest)
    (newID : String) (now : Int) (store : List Todo) :
    (TodoSvc.create userID req newID now store).1.Status = StatusPending := rfl

/-- C5: `todoService.GetList` replaces a page below 1 by 1 and a limit outside
`[1,100]` by 10, reports `totalPages` as the ceiling of `total / limit` for
the normalised limit, and on a store of 25 todos of one user returns 10 items
with total 25 and 3 total pages on page 1, and 0 items on page 4. -/
theorem c5_list_pagination (userID : String) (req : TodoListRequest)
    (store : List Todo) :
    ((TodoSvc.getList userID req store).Page
        = (if req.Page < 1 then 1 else req.Page) ∧
      (TodoSvc.getList userID req store).Limit
        = (if req.Limit < 1 || req.Limit > 100 then 10 else req.Limit) ∧
      (TodoSvc.getList userID req store).TotalPages
        = ((TodoSvc.getList userID req store).Total
            + (if req.Limit < 1 || req.Limit > 100 then 10 else req.Limit).toNat - 1)
          / (if req.Limit < 1 || req.Limit > 100 then 10 else req.Limit).toNat) ∧
    ((TodoSvc.getList ("alice") (listReq 1 10) store25).Data.length = 10 ∧
      (TodoSvc.getList ("alice") (listReq 1 10) store25).Total = 25 ∧
      (TodoSvc.getList ("alice") (listReq 1 10) store25).TotalPages = 3 ∧
      (TodoSvc.getList ("alice") (listReq 4 10) store25).Data.length = 0) := by
  refine ⟨⟨rfl, rfl, rfl⟩, ?_, ?_, ?_, ?_⟩ <;> decide

/-- C6: a token issued at `now` carries expiry `now + 3600 * hours`, and the
expiry comparison accepts it exactly at the validation instants strictly
before the expiry; at the expiry instant itself it is already rejected. -/
theorem c6_token_valid_strictly_before_expiry (expirationHours now : Int)
    (userID : String) (t : Int) :
    validateTokenAt (generateToken expirationHours now userID) t
        = decide (t < now + 3600 * expirationHours) ∧
    validateTokenAt (generateToken expirationHours now userID)
        (now + 3600 * expirationHours) = false := by
  constructor
  · rfl
  · simp [validateTokenAt, generateToken]

/-- C7: on a todo whose status is `pending` or `completed`, one service-level
toggle flips the status and a second toggle restores the original status. -/
theorem c7_toggle_is_involution (store : List Todo) (a tid : String)
    (now1 now2 : Int) (t0 t1 t2 : Todo) (s1 s2 : List Todo)
    (h0 : getUserTodoByID a tid store = some t0)
    (hstat : t0.Status = StatusPending ∨ t0.Status = StatusCompleted)
    (h1 : TodoSvc.toggleStatus a tid now1 store = Except.ok (t1, s1))
    (h2 : TodoSvc.toggleStatus a tid now2 s1 = Except.ok (t2, s2)) :
    (t0.Status = StatusPending → t1.Status = StatusCompleted) ∧
    (t0.Status = StatusCompleted → t1.Status = StatusPending) ∧
    t2.Status = t0.Status := by
  rcases hstat with hp | hp
  · have hc : Todo.isCompleted t0 = false := by
      simp [Todo.isCompleted, hp, StatusPending, StatusCompleted]
    simp only [TodoSvc.toggleStatus, h0, hc, Bool.false_eq_true, if_false,
      Except.ok.injEq, Prod.mk.injEq] at h1
    obtain ⟨ht1, hs1⟩ := h1
    have hfind : getUserTodoByID a tid s1
        = some ({ t0.markAsCompleted with UpdatedAt := now1 }) := by
      rw [← hs1]
      exact getUserTodoByID_save a tid store t0 _ h0 rfl rfl rfl
    have hc2 : Todo.isCompleted ({ t0.markAsCompleted with UpdatedAt := now1 })
        = true := by
      simp [Todo.isCompleted, Todo.markAsCompleted]
    simp only [TodoSvc.toggleStatus, hfind, hc2, if_true, Except.ok.injEq,
      Prod.mk.injEq] at h2
    obtain ⟨ht2, _⟩ := h2
    refine ⟨fun _ => ?_, fun hcontra => ?_, ?_⟩
    · rw [← ht1]
      rfl
    · rw [hp] at hcontra
      exact absurd hcontra (by decide)
    · rw [← ht2, hp]
      rfl
  · have hc : Todo.isCompleted t0 = true := by
      simp [Todo.isCompleted, hp, StatusCompleted]
    simp only [TodoSvc.toggleStatus, h0, hc, if_true, Except.ok.injEq,
      Prod.mk.injEq] at h1
    obtain ⟨ht1, hs1⟩ := h1
    have hfind : getUserTodoByID a tid s1
        = some ({ t0.markAsPending with UpdatedAt := now1 }) := by
      rw [← hs1]
      exact getUserTodoByID_save a tid store t0 _ h0 rfl rfl rfl
    have hc2 : Todo.isCompleted ({ t0.markAsPending with UpdatedAt := now1 })
        = false := by
      simp [Todo.isCompleted, Todo.markAsPending, StatusPending, StatusCompleted]
    simp only [TodoSvc.toggleStatus, hfind, hc2, Bool.false_eq_true, if_false,
      Except.ok.injEq, Prod.mk.injEq] at h2
    obtain ⟨ht2, _⟩ := h2
    refine ⟨fun hcontra => ?_, fun _ => ?_, ?_⟩
    · rw [hp] at hcontra
      exact absurd hcontra (by decide)
    · rw [← ht1]
      rfl
    · rw [← ht2, hp]
      rfl

/-- The result of the first toggle of `aliceTodo`. -/
def aliceToggled1 : Todo := { aliceTodo.markAsCompleted with UpdatedAt := 1 }

/-- The result of the second toggle. -/
def aliceToggled2 : Todo := { aliceToggled1.markAsPending with UpdatedAt := 2 }

/-- C7 witness: toggling `aliceTodo` twice in a singleton store. -/
theorem c7_witness :
    (getUserTodoByID ("alice") ("t1") [aliceTodo] = some aliceTodo ∧
      (aliceTodo.Status = StatusPending ∨ aliceTodo.Status = StatusCompleted) ∧
      TodoSvc.toggleStatus ("alice") ("t1") 1 [aliceTodo]
        = Except.ok (aliceToggled1, [aliceToggled1]) ∧
      TodoSvc.toggleStatus ("alice") ("t1") 2 [aliceToggled1]
        = Except.ok (aliceToggled2, [aliceToggled2])) ∧
    ((aliceTodo.Status = StatusPending → aliceToggled1.Status = StatusCompleted) ∧
      (aliceTodo.Status = StatusCompleted → aliceToggled1.Status = StatusPending) ∧
      aliceToggled2.Status = aliceTodo.Status) :=
  ⟨⟨rfl, Or.inl rfl, rfl, rfl⟩,
    c7_toggle_is_involution [aliceTodo] ("alice") ("t1") 1 2 aliceTodo
      aliceToggled1 aliceToggled2 [aliceToggled1] [aliceToggled2]
      rfl (Or.inl rfl) rfl rfl⟩

/-- C8: a create request whose priority key is omitted binds the priority to
the zero value `""`, which the handler's struct validation rejects with HTTP
400 before the service runs, so the create operation does not succeed and the
documented `medium` default is never applied. -/
theorem c8_omitted_priority_is_rejected :
    validCreateTodoRequest omittedPriorityReq = false ∧
    handleCreate ("alice") omittedPriorityReq ("t1") 0 [] = Except.error 400 := by
  constructor
  · decide
  · rfl

/-- C9 counterexample: with search text `_` the repository returns the todo
titled `a` — the unescaped `ILIKE` pattern `%_%` matches any non-empty text —
although `_` is not a substring of `a`, so matching is not plain substring
semantics for search texts containing `ILIKE` metacharacters. -/
theorem c9_unescaped_metacharacter_counterexample :
    (getByUserID ("u")
        { Page := 1, Limit := 10, Status := none, Priority := none,
          Search := ("_") } [letterTodo]).1 = [letterTodo] ∧
    specSearchMatches ("_") letterTodo = false := by
  constructor <;> decide

/-- C9 amended: for a search text free of the `LIKE` metacharacters `%`, `_`
and the escape character, the repository's `ILIKE '%search%'` condition on a
row coincides with case-insensitive substring containment in the title or the
description; search texts containing metacharacters are instead interpreted
as patterns (`%` any sequence, `_` any single character). -/
theorem c9_clean_search_is_substring (s : String) (hs : cleanSearch s) :
    ∀ t : Todo, searchMatches s t = specSearchMatches s t := by
  intro t
  have hs2 : ∀ c ∈ s.data, c ≠ '%' ∧ c ≠ '_' :=
    fun c hc => ⟨(hs c hc).1, (hs c hc).2.1⟩
  have hdata : (searchPattern s).data = '%' :: (s.data ++ ['%']) := rfl
  unfold searchMatches specSearchMatches
  rw [hdata, likeMatch_clean_contains s.data hs2 t.Title.data,
    likeMatch_clean_contains s.data hs2 t.Description.data]

/-- C9 witness: the metacharacter-free search `milk` agrees with
case-insensitive substring matching on a todo titled `Buy MILK`. -/
theorem c9_witness :
    cleanSearch ("milk") ∧
    searchMatches ("milk") milkTodo = specSearchMatches ("milk") milkTodo :=
  ⟨by decide, c9_clean_search_is_substring ("milk") (by decide) milkTodo⟩

/-- C10: along any trace of requests starting from the empty store, every
todo in the resulting store carries the user id of the caller of the create
request that introduced its id: update exposes no owner field and update,
toggle and delete leave `UserID` untouched. -/
theorem c10_owner_fixed_at_creation (ops : List TodoOp) (t : Todo)
    (ht : t ∈ runOps [] ops) :
    (t.ID, t.UserID) ∈ createdPairs ops := by
  have h := runOps_ownerPairs ops [] t ht
  simpa [ownerPairs] using h

/-- C10 witness: a two-request trace creating then toggling `milkTodo`. -/
theorem c10_witness :
    milkTodo ∈ runOps []
        [TodoOp.createOp ("alice") milkReq ("t1") 0,
         TodoOp.toggleOp ("bob") ("t1") 1] ∧
    (milkTodo.ID, milkTodo.UserID) ∈ createdPairs
        [TodoOp.createOp ("alice") milkReq ("t1") 0,
         TodoOp.toggleOp ("bob") ("t1") 1] :=
  ⟨by decide,
    c10_owner_fixed_at_creation
      [TodoOp.createOp ("alice") milkReq ("t1") 0,
       TodoOp.toggleOp ("bob") ("t1") 1] milkTodo (by decide)⟩

end TodoApp
